import Mathlib

/-!
# Verification of the finops-platform analytical core

Shallow embedding in Lean 4 of the cost-aggregation, anomaly-detection,
budget-check and chargeback-allocation code of `finops-platform`.
`float64` amounts are embedded as exact rationals (`ℚ`); Go maps with
`m[k] += v` accumulation are embedded as association lists with an
`addTo` update that preserves first-insertion order.
-/

namespace FinOps

/-- A Go `map[string]float64` as an association list (insertion-ordered). -/
abbrev GoMap := List (String × ℚ)

/-- `m[k] += v` on a Go map: update the existing binding or append a new one. -/
def addTo : GoMap → String → ℚ → GoMap
  | [], k, v => [(k, v)]
  | (k', v') :: rest, k, v =>
      if k' = k then (k', v' + v) :: rest else (k', v') :: addTo rest k v

/-- Reading `m[k]` from a Go map: missing keys read as `0`. -/
def lookup0 : GoMap → String → ℚ
  | [], _ => 0
  | (k', v') :: rest, k => if k' = k then v' else lookup0 rest k

/-- The key list of a Go map. -/
def keys (m : GoMap) : List String := m.map Prod.fst

/-- The sum of the values of a Go map. -/
def valsum (m : GoMap) : ℚ := (m.map Prod.snd).sum

/-- `aggregator.CostEntry` (config.go): one normalized cost line.
`date` carries the already-formatted `YYYY-MM-DD` day used as `ByDate` key. -/
structure CostEntry where
  provider : String
  accountID : String
  service : String
  region : String
  date : String
  cost : ℚ
  currency : String
  usageType : String
  usageAmount : ℚ
  usageUnit : String
deriving DecidableEq, Repr

/-- `aggregator.AggregationResult` (config.go). -/
structure AggregationResult where
  totalCost : ℚ
  byProvider : GoMap
  byService : GoMap
  byAccount : GoMap
  byRegion : GoMap
  byDate : GoMap
  entries : List CostEntry
deriving DecidableEq, Repr

/-- The freshly initialised result `Aggregate` starts from. -/
def emptyResult : AggregationResult :=
  { totalCost := 0, byProvider := [], byService := [], byAccount := [],
    byRegion := [], byDate := [], entries := [] }

/-- The per-entry merge step of `Aggregator.Aggregate`'s accumulation loop. -/
def mergeEntry (r : AggregationResult) (e : CostEntry) : AggregationResult :=
  { entries := r.entries ++ [e]
    totalCost := r.totalCost + e.cost
    byProvider := addTo r.byProvider e.provider e.cost
    byService := addTo r.byService e.service e.cost
    byAccount := addTo r.byAccount e.accountID e.cost
    byRegion := addTo r.byRegion e.region e.cost
    byDate := addTo r.byDate e.date e.cost }

/-- Merging a list of entries into a result, in list order. -/
def mergeAll (r : AggregationResult) (es : List CostEntry) : AggregationResult :=
  es.foldl mergeEntry r

instance {ε α : Type} [DecidableEq ε] [DecidableEq α] : DecidableEq (Except ε α) := fun a b =>
  match a, b with
  | .ok x, .ok y => if h : x = y then .isTrue (by rw [h]) else .isFalse (by simp [h])
  | .error x, .error y => if h : x = y then .isTrue (by rw [h]) else .isFalse (by simp [h])
  | .ok _, .error _ => .isFalse (by simp)
  | .error _, .ok _ => .isFalse (by simp)

/-- A registered provider together with the outcome of its
`GetCosts(ctx, start, end)` call over the run's fixed time range. -/
structure Provider where
  name : String
  fetch : Except String (List CostEntry)
deriving DecidableEq, Repr

/-- The errors pushed onto `errCh`: one `"name: err"` per failing provider. -/
def fetchErrors (ps : List Provider) : List String :=
  ps.filterMap fun p =>
    match p.fetch with
    | .error e => some (p.name ++ ": " ++ e)
    | .ok _ => none

/-- The entries contributed by the succeeding providers. -/
def successEntries (ps : List Provider) : List CostEntry :=
  ps.flatMap fun p =>
    match p.fetch with
    | .ok es => es
    | .error _ => []

/-- The names of the providers whose fetch succeeded. -/
def succeedingNames (ps : List Provider) : List String :=
  ps.filterMap fun p =>
    match p.fetch with
    | .ok _ => some p.name
    | .error _ => none

/-- `Aggregator.Aggregate`: merge all successful providers' entries; if
every provider failed (and there was at least one) return the collected
error list instead. -/
def Aggregate (ps : List Provider) : Except (List String) AggregationResult :=
  let errs := fetchErrors ps
  if 0 < errs.length ∧ errs.length = ps.length then
    .error errs
  else
    .ok (mergeAll emptyResult (successEntries ps))

/-! ## Budget checker (`Aggregator.CheckBudgets`, config.go) -/

/-- `config.Budget` (config.go): notification targets are irrelevant to
threshold logic and omitted. -/
structure Budget where
  name : String
  provider : String
  scope : String
  monthlyLimit : ℚ
  alertAt : List Int
deriving DecidableEq, Repr

/-- `aggregator.BudgetAlert` (config.go); `AlertedAt` (wall-clock stamp)
is not modelled. -/
structure BudgetAlert where
  budgetName : String
  provider : String
  scope : String
  budgetLimit : ℚ
  currentSpend : ℚ
  percentUsed : ℚ
  severity : String
deriving DecidableEq, Repr

/-- Current spend for one budget: grand total for provider `"all"`, else
the provider's entry; a non-empty scope overrides with the account entry. -/
def budgetSpend (result : AggregationResult) (b : Budget) : ℚ :=
  let base := if b.provider = "all" then result.totalCost
              else lookup0 result.byProvider b.provider
  if b.scope ≠ "" then lookup0 result.byAccount b.scope else base

/-- Severity assigned to a triggered threshold percentage. -/
def alertSeverity (alertAt : Int) : String :=
  if alertAt ≥ 90 then "high"
  else if alertAt ≥ 75 then "medium"
  else if alertAt ≥ 50 then "low"
  else "info"

/-- The `for ... break` over `budget.AlertAt`: the first threshold the
percent-used meets or exceeds, if any. -/
def firstTriggered (pct : ℚ) : List Int → Option Int
  | [] => none
  | a :: rest => if pct ≥ (a : ℚ) then some a else firstTriggered pct rest

/-- The alerts one budget contributes: at most one, for the first
triggered threshold. -/
def budgetAlerts (result : AggregationResult) (b : Budget) : List BudgetAlert :=
  let spend := budgetSpend result b
  let pct := spend / b.monthlyLimit * 100
  match firstTriggered pct b.alertAt with
  | none => []
  | some a =>
      [{ budgetName := b.name, provider := b.provider, scope := b.scope,
         budgetLimit := b.monthlyLimit, currentSpend := spend,
         percentUsed := pct, severity := alertSeverity a }]

/-- `Aggregator.CheckBudgets`: concatenate each configured budget's alerts. -/
def CheckBudgets (result : AggregationResult) (budgets : List Budget) : List BudgetAlert :=
  budgets.flatMap (budgetAlerts result)

/-! ## Anomaly detector (`internal/anomaly/detector.go`) -/

/-- `anomaly.Sensitivity`. -/
inductive Sensitivity
  | low
  | medium
  | high
deriving DecidableEq, Repr

/-- The z-score threshold table built by `NewDetector`. -/
def thresholds : Sensitivity → ℚ
  | .low => 3
  | .medium => 2
  | .high => 3 / 2

/-- `normalizer.CostRecord`, restricted to the fields the detector and the
allocator read. `date` is the record's day (already formatted). -/
structure CostRecord where
  cloud : String
  account : String
  service : String
  region : String
  date : String
  cost : ℚ
  tags : List (String × String)
deriving DecidableEq, Repr

/-- `anomaly.Baseline`. -/
structure Baseline where
  mean : ℚ
  stdDev : ℚ
  minV : ℚ
  maxV : ℚ
  count : Nat
deriving DecidableEq, Repr

/-- `anomaly.Anomaly`. -/
structure Anomaly where
  date : String
  service : String
  account : String
  cloud : String
  actualCost : ℚ
  expectedCost : ℚ
  deviation : ℚ
  percentChange : ℚ
  reason : String
  severity : String
deriving DecidableEq, Repr

/-- `determineReason` (detector.go). -/
def determineReason (percentChange : ℚ) : String :=
  if percentChange > 100 then
    "Significant cost spike - possible new workload or misconfiguration"
  else if percentChange > 50 then
    "Notable increase - check for scaling events or new resources"
  else if percentChange < -50 then
    "Significant decrease - resource termination or reduced usage"
  else if percentChange > 20 then
    "Moderate increase - normal variance or gradual growth"
  else
    "Cost deviation from historical baseline"

/-- `Detector.checkAnomaly`: z-score a record against a baseline; `none`
when variance is zero or |z| is below the sensitivity threshold. -/
def checkAnomaly (sens : Sensitivity) (r : CostRecord) (baseline : Baseline) :
    Option Anomaly :=
  if baseline.stdDev = 0 then none
  else
    let zScore := (r.cost - baseline.mean) / baseline.stdDev
    if |zScore| < thresholds sens then none
    else
      let percentChange := (r.cost - baseline.mean) / baseline.mean * 100
      let severity :=
        if |zScore| ≥ 4 then "critical"
        else if |zScore| ≥ 3 then "high"
        else if |zScore| ≥ 2 then "medium"
        else "low"
      some { date := r.date, service := r.service, account := r.account,
             cloud := r.cloud, actualCost := r.cost,
             expectedCost := baseline.mean, deviation := zScore,
             percentChange := percentChange,
             reason := determineReason percentChange, severity := severity }

/-- The grouping key used by `Detector.Detect`: `r.Cloud + ":" + r.Service`. -/
def detectKey (r : CostRecord) : String := r.cloud ++ ":" ++ r.service

/-- A Go `map[string][]CostRecord`, insertion-ordered. -/
abbrev RecordGroups := List (String × List CostRecord)

/-- `byService[key] = append(byService[key], r)`. -/
def addRecord : RecordGroups → String → CostRecord → RecordGroups
  | [], k, r => [(k, [r])]
  | (k', rs) :: rest, k, r =>
      if k' = k then (k', rs ++ [r]) :: rest else (k', rs) :: addRecord rest k r

/-- The partitioning loop of `Detector.Detect`. -/
def groupRecords (records : List CostRecord) : RecordGroups :=
  records.foldl (fun m r => addRecord m (detectKey r) r) []

/-- Reading a group: missing keys read as the empty list. -/
def lookupGroup : RecordGroups → String → List CostRecord
  | [], _ => []
  | (k', rs) :: rest, k => if k' = k then rs else lookupGroup rest k

/-! ## Chargeback allocator (`internal/chargeback`, src/unnamed/part_000) -/

/-- `chargeback.SharedCostRule`. -/
structure SharedCostRule where
  costCenter : String
  percentage : ℚ
deriving DecidableEq, Repr

/-- `chargeback.AllocatorConfig`. -/
structure AllocatorConfig where
  primaryTag : String
  fallbackTag : String
  untaggedPool : String
  sharedCostSplit : List SharedCostRule
deriving DecidableEq, Repr

/-- `chargeback.Allocation`. -/
structure Allocation where
  costCenter : String
  totalCost : ℚ
  directCost : ℚ
  allocatedCost : ℚ
  byCloud : GoMap
  byService : GoMap
  records : List CostRecord
deriving DecidableEq, Repr

/-- The zero-valued `&Allocation{CostCenter: cc, ...}` the Go code inserts
for an unseen cost center. -/
def emptyAlloc (cc : String) : Allocation :=
  { costCenter := cc, totalCost := 0, directCost := 0, allocatedCost := 0,
    byCloud := [], byService := [], records := [] }

/-- A Go `map[string]*Allocation`, insertion-ordered. -/
abbrev AllocMap := List (String × Allocation)

/-- The Go pattern `if absent, insert empty; then mutate through pointer`. -/
def updateAlloc : AllocMap → String → (Allocation → Allocation) → AllocMap
  | [], cc, f => [(cc, f (emptyAlloc cc))]
  | (k, a) :: rest, cc, f =>
      if k = cc then (k, f a) :: rest else (k, a) :: updateAlloc rest cc f

/-- Reading a tag from a record's tag map. -/
def lookupTag : List (String × String) → String → Option String
  | [], _ => none
  | (k', v') :: rest, k => if k' = k then some v' else lookupTag rest k

/-- `Allocator.getCostCenter`: primary tag if present and non-empty, else
fallback tag if present and non-empty, else `""`. -/
def getCostCenter (cfg : AllocatorConfig) (r : CostRecord) : String :=
  match lookupTag r.tags cfg.primaryTag with
  | some cc =>
      if cc ≠ "" then cc
      else
        match lookupTag r.tags cfg.fallbackTag with
        | some cc' => if cc' ≠ "" then cc' else ""
        | none => ""
  | none =>
      match lookupTag r.tags cfg.fallbackTag with
      | some cc' => if cc' ≠ "" then cc' else ""
      | none => ""

/-- Accumulating one tagged record into its cost center's allocation. -/
def tagRecord (m : AllocMap) (cc : String) (r : CostRecord) : AllocMap :=
  updateAlloc m cc fun a =>
    { a with totalCost := a.totalCost + r.cost
             directCost := a.directCost + r.cost
             byCloud := addTo a.byCloud r.cloud r.cost
             byService := addTo a.byService r.service r.cost
             records := a.records ++ [r] }

/-- The tagged/untagged split loop at the top of `Allocator.Allocate`. -/
def allocTagged (cfg : AllocatorConfig) (records : List CostRecord) :
    AllocMap × List CostRecord :=
  records.foldl
    (fun acc r =>
      let cc := getCostCenter cfg r
      if cc = "" then (acc.1, acc.2 ++ [r]) else (tagRecord acc.1 cc r, acc.2))
    ([], [])

/-- Total direct cost held by the current allocations. -/
def sumDirect (m : AllocMap) : ℚ := (m.map fun p => p.2.directCost).sum

/-- `Allocator.distributeProportionally`: spread `amount` over all centers
by direct-cost share; a zero direct total distributes nothing. -/
def distributeProportionally (m : AllocMap) (amount : ℚ) : AllocMap :=
  let totalDirect := sumDirect m
  if totalDirect = 0 then m
  else
    m.map fun p =>
      let allocated := amount * (p.2.directCost / totalDirect)
      (p.1, { p.2 with allocatedCost := p.2.allocatedCost + allocated
                       totalCost := p.2.totalCost + allocated })

/-- The shared-cost-rule loop of `allocateUntagged`: grant each rule its
percentage of the pool and track the remaining percentage. -/
def applyRules (rules : List SharedCostRule) (pool : ℚ)
    (acc : AllocMap × ℚ) : AllocMap × ℚ :=
  rules.foldl
    (fun acc rule =>
      let allocated := pool * (rule.percentage / 100)
      (updateAlloc acc.1 rule.costCenter fun a =>
         { a with allocatedCost := a.allocatedCost + allocated
                  totalCost := a.totalCost + allocated },
       acc.2 - rule.percentage))
    acc

/-- `Allocator.allocateUntagged`. -/
def allocateUntagged (cfg : AllocatorConfig) (m : AllocMap)
    (untagged : List CostRecord) : AllocMap :=
  if untagged = [] then m
  else
    let totalUntagged := (untagged.map CostRecord.cost).sum
    if cfg.sharedCostSplit ≠ [] then
      let res := applyRules cfg.sharedCostSplit totalUntagged (m, 100)
      if res.2 > 0 then
        distributeProportionally res.1 (totalUntagged * (res.2 / 100))
      else res.1
    else if cfg.untaggedPool ≠ "" then
      let m' := updateAlloc m cfg.untaggedPool fun a =>
        { a with totalCost := a.totalCost + totalUntagged
                 allocatedCost := a.allocatedCost + totalUntagged }
      untagged.foldl
        (fun acc r =>
          updateAlloc acc cfg.untaggedPool fun a =>
            { a with byCloud := addTo a.byCloud r.cloud r.cost
                     byService := addTo a.byService r.service r.cost })
        m'
    else
      distributeProportionally m totalUntagged

/-- `Allocator.Allocate`. -/
def Allocate (cfg : AllocatorConfig) (records : List CostRecord) : AllocMap :=
  let res := allocTagged cfg records
  allocateUntagged cfg res.1 res.2

/-! ## Concrete inputs used by witnesses and counterexamples -/

/-- A provider whose fetch succeeds with an empty entry list. -/
def provEmptyOk : Provider := { name := "aws", fetch := .ok [] }

/-- A sample cost entry attributed to provider `aws`. -/
def entryAws : CostEntry :=
  { provider := "aws", accountID := "111", service := "ec2", region := "us-east-1",
    date := "2024-01-01", cost := 10, currency := "USD", usageType := "",
    usageAmount := 0, usageUnit := "" }

/-- One succeeding and one failing provider. -/
def provsMixed : List Provider :=
  [{ name := "aws", fetch := .ok [entryAws] }, { name := "gcp", fetch := .error "boom" }]

/-- Two providers that both fail. -/
def provsAllFail : List Provider :=
  [{ name := "aws", fetch := .error "throttled" }, { name := "gcp", fetch := .error "denied" }]

/-! ## Lemmas on Go-map accumulation -/

theorem valsum_addTo (m : GoMap) (k : String) (v : ℚ) :
    valsum (addTo m k v) = valsum m + v := by
  induction m with
  | nil => simp [addTo, valsum]
  | cons p rest ih =>
      obtain ⟨k', v'⟩ := p
      by_cases h : k' = k
      · simp [addTo, h, valsum]
        ring
      · simp only [addTo, h, if_false, ite_false, valsum, List.map_cons, List.sum_cons] at ih ⊢
        rw [ih]
        ring

theorem mem_keys_addTo (m : GoMap) (k : String) (v : ℚ) (x : String) :
    x ∈ keys (addTo m k v) ↔ x ∈ keys m ∨ x = k := by
  induction m with
  | nil => simp [addTo, keys]
  | cons p rest ih =>
      obtain ⟨k', v'⟩ := p
      by_cases h : k' = k
      · subst h
        simp [addTo, keys]
        tauto
      · simp only [addTo, h, if_false, ite_false, keys, List.map_cons, List.mem_cons] at ih ⊢
        tauto

/-! ## Lemmas on the merge loop -/

theorem mergeAll_cons (r : AggregationResult) (e : CostEntry) (es : List CostEntry) :
    mergeAll r (e :: es) = mergeAll (mergeEntry r e) es := rfl

theorem mergeAll_totalCost (es : List CostEntry) :
    ∀ r : AggregationResult,
      (mergeAll r es).totalCost = r.totalCost + (es.map CostEntry.cost).sum := by
  induction es with
  | nil => intro r; simp [mergeAll]
  | cons e es ih =>
      intro r
      rw [mergeAll_cons, ih]
      simp [mergeEntry]
      ring

theorem mergeAll_valsum_byProvider (es : List CostEntry) :
    ∀ r : AggregationResult,
      valsum (mergeAll r es).byProvider = valsum r.byProvider + (es.map CostEntry.cost).sum := by
  induction es with
  | nil => intro r; simp [mergeAll]
  | cons e es ih =>
      intro r
      rw [mergeAll_cons, ih]
      show valsum (addTo r.byProvider e.provider e.cost) + _ = _
      rw [valsum_addTo]
      simp
      ring

theorem mergeAll_valsum_byService (es : List CostEntry) :
    ∀ r : AggregationResult,
      valsum (mergeAll r es).byService = valsum r.byService + (es.map CostEntry.cost).sum := by
  induction es with
  | nil => intro r; simp [mergeAll]
  | cons e es ih =>
      intro r
      rw [mergeAll_cons, ih]
      show valsum (addTo r.byService e.service e.cost) + _ = _
      rw [valsum_addTo]
      simp
      ring

theorem mergeAll_valsum_byAccount (es : List CostEntry) :
    ∀ r : AggregationResult,
      valsum (mergeAll r es).byAccount = valsum r.byAccount + (es.map CostEntry.cost).sum := by
  induction es with
  | nil => intro r; simp [mergeAll]
  | cons e es ih =>
      intro r
      rw [mergeAll_cons, ih]
      show valsum (addTo r.byAccount e.accountID e.cost) + _ = _
      rw [valsum_addTo]
      simp
      ring

theorem mem_keys_mergeAll_byProvider (es : List CostEntry) :
    ∀ (r : AggregationResult) (x : String),
      x ∈ keys (mergeAll r es).byProvider ↔
        x ∈ keys r.byProvider ∨ x ∈ es.map CostEntry.provider := by
  induction es with
  | nil => intro r x; simp [mergeAll]
  | cons e es ih =>
      intro r x
      rw [mergeAll_cons, ih]
      show (x ∈ keys (addTo r.byProvider e.provider e.cost) ∨ _) ↔ _
      rw [mem_keys_addTo]
      simp only [List.map_cons, List.mem_cons]
      tauto

/-! ## Lemmas on the provider fan-out -/

theorem fetchErrors_add_succeeding (ps : List Provider) :
    (fetchErrors ps).length + (succeedingNames ps).length = ps.length := by
  induction ps with
  | nil => simp [fetchErrors, succeedingNames]
  | cons p ps ih =>
      cases hf : p.fetch with
      | ok es =>
          simp only [fetchErrors, succeedingNames, List.filterMap_cons, hf] at ih ⊢
          simp only [List.length_cons, List.length]
          omega
      | error e =>
          simp only [fetchErrors, succeedingNames, List.filterMap_cons, hf] at ih ⊢
          simp only [List.length_cons, List.length]
          omega

theorem aggregate_ok_of_not_all_fail (ps : List Provider)
    (hcond : ¬(0 < (fetchErrors ps).length ∧ (fetchErrors ps).length = ps.length)) :
    Aggregate ps = .ok (mergeAll emptyResult (successEntries ps)) := by
  unfold Aggregate
  rw [if_neg hcond]

theorem aggregate_ok_shape (ps : List Provider) (r : AggregationResult)
    (h : Aggregate ps = .ok r) :
    r = mergeAll emptyResult (successEntries ps) := by
  simp only [Aggregate] at h
  split at h
  · exact absurd h (by simp)
  · exact (Except.ok.injEq _ _ ▸ h).symm

/-! ## Claim theorems: aggregator -/

/-- C1 (counterexample): with a single registered provider `aws` whose
fetch succeeds with zero entries, `Aggregate` returns a result whose
`ByProvider` key set is empty although the set of succeeding providers is
`{aws}` — the key set is NOT exactly the set of succeeding providers. -/
theorem aggregate_byProvider_keys_cex :
    Aggregate [provEmptyOk] = .ok emptyResult ∧
    succeedingNames [provEmptyOk] = ["aws"] ∧
    keys emptyResult.byProvider = [] := by
  exact ⟨rfl, rfl, rfl⟩

/-- C1 (amended): if at least one provider's fetch succeeds, `Aggregate`
returns a non-error result built only from the successful providers'
entries: its `ByProvider` key set is exactly the set of provider names
carried by those entries, and its `TotalCost` is the sum of the costs the
succeeding providers contributed. -/
theorem aggregate_partial_success (ps : List Provider)
    (h : succeedingNames ps ≠ []) :
    ∃ r, Aggregate ps = .ok r ∧
      (∀ k, k ∈ keys r.byProvider ↔ k ∈ (successEntries ps).map CostEntry.provider) ∧
      r.totalCost = ((successEntries ps).map CostEntry.cost).sum := by
  have hlen := fetchErrors_add_succeeding ps
  have hpos : 0 < (succeedingNames ps).length := List.length_pos.mpr h
  have hcond : ¬(0 < (fetchErrors ps).length ∧ (fetchErrors ps).length = ps.length) := by
    omega
  refine ⟨mergeAll emptyResult (successEntries ps),
    aggregate_ok_of_not_all_fail ps hcond, ?_, ?_⟩
  · intro k
    rw [mem_keys_mergeAll_byProvider]
    simp [emptyResult, keys]
  · rw [mergeAll_totalCost]
    simp [emptyResult]

/-- Witness for `aggregate_partial_success` at a mixed success/failure run. -/
theorem aggregate_partial_success_witness :
    succeedingNames provsMixed ≠ [] ∧
    ∃ r, Aggregate provsMixed = .ok r ∧
      (∀ k, k ∈ keys r.byProvider ↔ k ∈ (successEntries provsMixed).map CostEntry.provider) ∧
      r.totalCost = ((successEntries provsMixed).map CostEntry.cost).sum :=
  ⟨by decide, aggregate_partial_success provsMixed (by decide)⟩

/-- Whether a provider's fetch call failed. -/
def fetchFailed (p : Provider) : Bool :=
  match p.fetch with
  | .error _ => true
  | .ok _ => false

/-- C2: with at least one registered provider, if every provider's fetch
fails then `Aggregate` returns no result but the collected error list,
which holds exactly one error per registered provider. -/
theorem aggregate_all_fail (ps : List Provider) (hne : ps ≠ [])
    (hfail : ∀ p ∈ ps, fetchFailed p = true) :
    Aggregate ps = .error (fetchErrors ps) ∧
    (fetchErrors ps).length = ps.length := by
  have hlen : (fetchErrors ps).length = ps.length := by
    have hnone : succeedingNames ps = [] := by
      rw [succeedingNames, List.filterMap_eq_nil_iff]
      intro p hp
      have := hfail p hp
      unfold fetchFailed at this
      cases hf : p.fetch with
      | ok es => rw [hf] at this; simp at this
      | error e => simp [hf]
    have := fetchErrors_add_succeeding ps
    rw [hnone] at this
    simpa using this
  have hpos : 0 < ps.length := List.length_pos.mpr hne
  refine ⟨?_, hlen⟩
  unfold Aggregate
  rw [if_pos ⟨by omega, hlen⟩]

/-- Witness for `aggregate_all_fail` with two failing providers. -/
theorem aggregate_all_fail_witness :
    provsAllFail ≠ [] ∧ (∀ p ∈ provsAllFail, fetchFailed p = true) ∧
    (Aggregate provsAllFail = .error (fetchErrors provsAllFail) ∧
      (fetchErrors provsAllFail).length = provsAllFail.length) :=
  ⟨by decide, by decide,
    aggregate_all_fail provsAllFail (by decide) (by decide)⟩

/-- C3: for every merged entry multiset — hence for every completion and
merge order of the per-provider fetch tasks — and for every result
`Aggregate` returns, the sums of the `ByProvider`, `ByService` and
`ByAccount` values each equal `TotalCost` within `1e-6`. -/
theorem aggregation_sum_invariant :
    (∀ es : List CostEntry,
      |valsum (mergeAll emptyResult es).byProvider - (mergeAll emptyResult es).totalCost| ≤ 1 / 1000000 ∧
      |valsum (mergeAll emptyResult es).byService - (mergeAll emptyResult es).totalCost| ≤ 1 / 1000000 ∧
      |valsum (mergeAll emptyResult es).byAccount - (mergeAll emptyResult es).totalCost| ≤ 1 / 1000000) ∧
    ∀ (ps : List Provider) (r : AggregationResult), Aggregate ps = .ok r →
      |valsum r.byProvider - r.totalCost| ≤ 1 / 1000000 ∧
      |valsum r.byService - r.totalCost| ≤ 1 / 1000000 ∧
      |valsum r.byAccount - r.totalCost| ≤ 1 / 1000000 := by
  have key : ∀ es : List CostEntry,
      |valsum (mergeAll emptyResult es).byProvider - (mergeAll emptyResult es).totalCost| ≤ 1 / 1000000 ∧
      |valsum (mergeAll emptyResult es).byService - (mergeAll emptyResult es).totalCost| ≤ 1 / 1000000 ∧
      |valsum (mergeAll emptyResult es).byAccount - (mergeAll emptyResult es).totalCost| ≤ 1 / 1000000 := by
    intro es
    rw [mergeAll_totalCost, mergeAll_valsum_byProvider, mergeAll_valsum_byService,
      mergeAll_valsum_byAccount]
    norm_num [emptyResult, valsum]
  refine ⟨key, ?_⟩
  intro ps r h
  rw [aggregate_ok_shape ps r h]
  exact key (successEntries ps)

/-- Witness for `aggregation_sum_invariant` at a mixed success/failure run. -/
theorem aggregation_sum_invariant_witness :
    Aggregate provsMixed = .ok (mergeAll emptyResult (successEntries provsMixed)) ∧
    (|valsum (mergeAll emptyResult (successEntries provsMixed)).byProvider -
        (mergeAll emptyResult (successEntries provsMixed)).totalCost| ≤ 1 / 1000000 ∧
      |valsum (mergeAll emptyResult (successEntries provsMixed)).byService -
        (mergeAll emptyResult (successEntries provsMixed)).totalCost| ≤ 1 / 1000000 ∧
      |valsum (mergeAll emptyResult (successEntries provsMixed)).byAccount -
        (mergeAll emptyResult (successEntries provsMixed)).totalCost| ≤ 1 / 1000000) :=
  ⟨rfl, aggregation_sum_invariant.2 provsMixed _ rfl⟩

/-- C10: with no registered provider, `Aggregate` returns a non-error,
empty result: total cost `0`, empty breakdown maps and no entries. -/
theorem aggregate_no_providers :
    Aggregate [] = .ok emptyResult ∧
    emptyResult.totalCost = 0 ∧
    emptyResult.byProvider = [] ∧ emptyResult.byService = [] ∧
    emptyResult.byAccount = [] ∧ emptyResult.byRegion = [] ∧
    emptyResult.byDate = [] ∧ emptyResult.entries = [] := by
  exact ⟨rfl, rfl, rfl, rfl, rfl, rfl, rfl, rfl⟩

/-! ## Claim theorems: budget checker -/

theorem firstTriggered_spec (pct : ℚ) (l : List Int)
    (h : ∃ a ∈ l, pct ≥ (a : ℚ)) :
    ∃ (pre : List Int) (a : Int) (post : List Int), l = pre ++ a :: post ∧ pct ≥ (a : ℚ) ∧
      (∀ x ∈ pre, pct < (x : ℚ)) ∧ firstTriggered pct l = some a := by
  induction l with
  | nil => simp at h
  | cons b rest ih =>
      by_cases hb : pct ≥ (b : ℚ)
      · exact ⟨[], b, rest, rfl, hb, by simp, by simp [firstTriggered, hb]⟩
      · have h' : ∃ a ∈ rest, pct ≥ (a : ℚ) := by
          obtain ⟨a, ha, hge⟩ := h
          rcases List.mem_cons.mp ha with rfl | hmem
          · exact absurd hge hb
          · exact ⟨a, hmem, hge⟩
        obtain ⟨pre, a, post, heq, hge, hpre, hft⟩ := ih h'
        refine ⟨b :: pre, a, post, by rw [heq, List.cons_append], hge, ?_,
          by simp [firstTriggered, hb, hft]⟩
        intro x hx
        rcases List.mem_cons.mp hx with rfl | hmem
        · exact lt_of_not_ge hb
        · exact hpre x hmem

/-- The aggregation result of a run whose grand total is 920. -/
def res920 : AggregationResult := { emptyResult with totalCost := 920 }

/-- A budget of 1000 over all providers with alert list `[50, 75, 90]`. -/
def b1000 : Budget :=
  { name := "monthly", provider := "all", scope := "", monthlyLimit := 1000,
    alertAt := [50, 75, 90] }

/-- C4: for every budget whose percent-used meets at least one entry of its
alert list, `CheckBudgets` emits exactly one alert for that budget, for the
first list entry (in configured order) the percent-used meets or exceeds —
every earlier entry is strictly above the percent-used and no alert is
emitted for any later entry. -/
theorem checkBudgets_first_threshold (result : AggregationResult) (b : Budget)
    (h : ∃ a ∈ b.alertAt, budgetSpend result b / b.monthlyLimit * 100 ≥ (a : ℚ)) :
    ∃ (pre : List Int) (a : Int) (post : List Int), b.alertAt = pre ++ a :: post ∧
      budgetSpend result b / b.monthlyLimit * 100 ≥ (a : ℚ) ∧
      (∀ x ∈ pre, budgetSpend result b / b.monthlyLimit * 100 < (x : ℚ)) ∧
      budgetAlerts result b =
        [{ budgetName := b.name, provider := b.provider, scope := b.scope,
           budgetLimit := b.monthlyLimit, currentSpend := budgetSpend result b,
           percentUsed := budgetSpend result b / b.monthlyLimit * 100,
           severity := alertSeverity a }] := by
  obtain ⟨pre, a, post, heq, hge, hpre, hft⟩ := firstTriggered_spec _ _ h
  refine ⟨pre, a, post, heq, hge, hpre, ?_⟩
  simp only [budgetAlerts]
  rw [hft]

/-- Witness for `checkBudgets_first_threshold`: limit 1000, spend 920,
alert list `[50, 75, 90]` — the single alert is for threshold 50
(severity "low"), not 75 or 90. -/
theorem checkBudgets_first_threshold_witness :
    (∃ a ∈ b1000.alertAt, budgetSpend res920 b1000 / b1000.monthlyLimit * 100 ≥ (a : ℚ)) ∧
    (∃ (pre : List Int) (a : Int) (post : List Int), b1000.alertAt = pre ++ a :: post ∧
      budgetSpend res920 b1000 / b1000.monthlyLimit * 100 ≥ (a : ℚ) ∧
      (∀ x ∈ pre, budgetSpend res920 b1000 / b1000.monthlyLimit * 100 < (x : ℚ)) ∧
      budgetAlerts res920 b1000 =
        [{ budgetName := b1000.name, provider := b1000.provider, scope := b1000.scope,
           budgetLimit := b1000.monthlyLimit, currentSpend := budgetSpend res920 b1000,
           percentUsed := budgetSpend res920 b1000 / b1000.monthlyLimit * 100,
           severity := alertSeverity a }]) ∧
    CheckBudgets res920 [b1000] =
      [{ budgetName := "monthly", provider := "all", scope := "",
         budgetLimit := 1000, currentSpend := 920, percentUsed := 92,
         severity := "low" }] :=
  have hyp : ∃ a ∈ b1000.alertAt,
      budgetSpend res920 b1000 / b1000.monthlyLimit * 100 ≥ (a : ℚ) := by
    refine ⟨50, by simp [b1000], ?_⟩
    norm_num [budgetSpend, res920, b1000, emptyResult]
  ⟨hyp, checkBudgets_first_threshold res920 b1000 hyp, by
    norm_num [CheckBudgets, budgetAlerts, budgetSpend, firstTriggered,
      alertSeverity, b1000, res920, emptyResult]⟩

/-! ## Claim theorems: anomaly detector -/

/-- A record whose cost is 135 on the most recent day. -/
def rec135 : CostRecord :=
  { cloud := "aws", account := "111", service := "ec2", region := "us-east-1",
    date := "2024-01-08", cost := 135, tags := [] }

/-- A baseline with mean 100 and population standard deviation 10. -/
def base100 : Baseline :=
  { mean := 100, stdDev := 10, minV := 90, maxV := 110, count := 30 }

/-- C5: scoring any record of cost 135 against a baseline of mean 100 and
standard deviation 10 under medium sensitivity (threshold 2.0) flags it
with z-score 3.5, severity "high" and percent change 35. -/
theorem checkAnomaly_medium_135 (r : CostRecord) (bl : Baseline)
    (hc : r.cost = 135) (hm : bl.mean = 100) (hs : bl.stdDev = 10) :
    ∃ a, checkAnomaly .medium r bl = some a ∧
      a.deviation = 7 / 2 ∧ a.severity = "high" ∧ a.percentChange = 35 := by
  refine ⟨{ date := r.date, service := r.service, account := r.account,
            cloud := r.cloud, actualCost := r.cost, expectedCost := bl.mean,
            deviation := 7 / 2, percentChange := 35,
            reason := determineReason 35, severity := "high" }, ?_, rfl, rfl, rfl⟩
  have habs : |(7 : ℚ) / 2| = 7 / 2 := abs_of_pos (by norm_num)
  simp only [checkAnomaly, thresholds, hc, hm, hs]
  norm_num [habs]

/-- Witness for `checkAnomaly_medium_135` at the concrete record/baseline. -/
theorem checkAnomaly_medium_135_witness :
    rec135.cost = 135 ∧ base100.mean = 100 ∧ base100.stdDev = 10 ∧
    ∃ a, checkAnomaly .medium rec135 base100 = some a ∧
      a.deviation = 7 / 2 ∧ a.severity = "high" ∧ a.percentChange = 35 :=
  ⟨rfl, rfl, rfl, checkAnomaly_medium_135 rec135 base100 rfl rfl rfl⟩

/-- Two records agreeing on cloud and service but differing in account. -/
def recAcct1 : CostRecord :=
  { cloud := "aws", account := "acct1", service := "ec2", region := "us-east-1",
    date := "2024-01-01", cost := 5, tags := [] }

/-- Same cloud and service as `recAcct1`, different account. -/
def recAcct2 : CostRecord :=
  { recAcct1 with account := "acct2", date := "2024-01-02", cost := 6 }

/-- C6 (counterexample): the detector groups by `Cloud + ":" + Service`
only, so two records that agree on cloud and service but differ in
account land in the SAME partition, not in different ones. -/
theorem detect_partition_account_cex :
    recAcct1.cloud = recAcct2.cloud ∧ recAcct1.service = recAcct2.service ∧
    recAcct1.account ≠ recAcct2.account ∧
    detectKey recAcct1 = detectKey recAcct2 ∧
    groupRecords [recAcct1, recAcct2] = [("aws:ec2", [recAcct1, recAcct2])] := by
  exact ⟨rfl, rfl, by decide, rfl, by decide⟩

theorem mem_lookupGroup_addRecord_self (m : RecordGroups) (k : String) (r : CostRecord) :
    r ∈ lookupGroup (addRecord m k r) k := by
  induction m with
  | nil => simp [addRecord, lookupGroup]
  | cons p rest ih =>
      obtain ⟨k0, rs⟩ := p
      by_cases h : k0 = k
      · subst h
        simp [addRecord, lookupGroup]
      · simp only [addRecord, h, if_false, ite_false, lookupGroup]
        exact ih

theorem mem_lookupGroup_addRecord_mono (m : RecordGroups) (k k' : String)
    (x r : CostRecord) (h : x ∈ lookupGroup m k) :
    x ∈ lookupGroup (addRecord m k' r) k := by
  induction m with
  | nil => simp [lookupGroup] at h
  | cons p rest ih =>
      obtain ⟨k0, rs⟩ := p
      by_cases h0 : k0 = k'
      · subst h0
        by_cases hk : k0 = k
        · subst hk
          simp only [lookupGroup, if_pos rfl] at h
          simp only [addRecord, if_pos rfl, lookupGroup, if_pos rfl]
          exact List.mem_append_left _ h
        · simp only [lookupGroup, if_neg hk] at h
          simp only [addRecord, if_pos rfl, lookupGroup, if_neg hk]
          exact h
      · by_cases hk : k0 = k
        · subst hk
          simp only [lookupGroup, if_pos rfl] at h
          simp only [addRecord, if_neg h0, lookupGroup, if_pos rfl]
          exact h
        · simp only [lookupGroup, if_neg hk] at h
          simp only [addRecord, if_neg h0, lookupGroup, if_neg hk]
          exact ih h

theorem mem_lookupGroup_groupAux (rs : List CostRecord) :
    ∀ (m : RecordGroups) (r : CostRecord),
      (r ∈ lookupGroup m (detectKey r) ∨ r ∈ rs) →
      r ∈ lookupGroup (rs.foldl (fun acc x => addRecord acc (detectKey x) x) m)
            (detectKey r) := by
  induction rs with
  | nil =>
      intro m r h
      rcases h with h | h
      · exact h
      · simp at h
  | cons x rs ih =>
      intro m r h
      show r ∈ lookupGroup
        (rs.foldl (fun acc y => addRecord acc (detectKey y) y)
          (addRecord m (detectKey x) x)) (detectKey r)
      apply ih
      rcases h with h | h
      · exact Or.inl (mem_lookupGroup_addRecord_mono m _ _ r x h)
      · rcases List.mem_cons.mp h with rfl | hmem
        · exact Or.inl (mem_lookupGroup_addRecord_self m _ r)
        · exact Or.inr hmem

theorem mem_lookupGroup_groupRecords (rs : List CostRecord) (r : CostRecord)
    (h : r ∈ rs) : r ∈ lookupGroup (groupRecords rs) (detectKey r) :=
  mem_lookupGroup_groupAux rs [] r (Or.inr h)

/-- C6 (amended): the detector partitions the input records by the
(cloud, service) pair — account is not part of the key — so every pair of
records that agree on cloud and service is placed in the same partition
and scored against the same partition's baseline, regardless of account. -/
theorem detect_partition_cloud_service (r1 r2 : CostRecord) (rs : List CostRecord)
    (hc : r1.cloud = r2.cloud) (hs : r1.service = r2.service)
    (h1 : r1 ∈ rs) (h2 : r2 ∈ rs) :
    detectKey r1 = detectKey r2 ∧
    r1 ∈ lookupGroup (groupRecords rs) (detectKey r1) ∧
    r2 ∈ lookupGroup (groupRecords rs) (detectKey r1) := by
  have hk : detectKey r1 = detectKey r2 := by
    unfold detectKey
    rw [hc, hs]
  refine ⟨hk, mem_lookupGroup_groupRecords rs r1 h1, ?_⟩
  rw [hk]
  exact mem_lookupGroup_groupRecords rs r2 h2

/-- Witness for `detect_partition_cloud_service` at two records differing
only in account (and date/cost). -/
theorem detect_partition_cloud_service_witness :
    (recAcct1.cloud = recAcct2.cloud ∧ recAcct1.service = recAcct2.service ∧
      recAcct1 ∈ [recAcct1, recAcct2] ∧ recAcct2 ∈ [recAcct1, recAcct2]) ∧
    (detectKey recAcct1 = detectKey recAcct2 ∧
      recAcct1 ∈ lookupGroup (groupRecords [recAcct1, recAcct2]) (detectKey recAcct1) ∧
      recAcct2 ∈ lookupGroup (groupRecords [recAcct1, recAcct2]) (detectKey recAcct1)) :=
  ⟨⟨rfl, rfl, by decide, by decide⟩,
    detect_partition_cloud_service recAcct1 recAcct2 [recAcct1, recAcct2]
      rfl rfl (by decide) (by decide)⟩

/-! ## Allocator invariant machinery -/

/-- The per-center chargeback invariant: total = direct + allocated. -/
def allocGood (a : Allocation) : Prop :=
  a.totalCost = a.directCost + a.allocatedCost

theorem allocGood_empty (cc : String) : allocGood (emptyAlloc cc) := by
  simp [allocGood, emptyAlloc]

theorem allocGood_updateAlloc (m : AllocMap) (cc : String)
    (f : Allocation → Allocation) (hf : ∀ a, allocGood a → allocGood (f a))
    (hm : ∀ p ∈ m, allocGood p.2) :
    ∀ p ∈ updateAlloc m cc f, allocGood p.2 := by
  induction m with
  | nil =>
      intro p hp
      simp only [updateAlloc, List.mem_singleton] at hp
      rw [hp]
      exact hf _ (allocGood_empty cc)
  | cons q rest ih =>
      obtain ⟨k, a⟩ := q
      intro p hp
      by_cases h : k = cc
      · simp only [updateAlloc, h, if_pos rfl] at hp
        rcases List.mem_cons.mp hp with rfl | hmem
        · exact hf a (hm (k, a) (List.mem_cons_self _ _))
        · exact hm p (List.mem_cons_of_mem _ hmem)
      · simp only [updateAlloc, h, if_false, ite_false] at hp
        rcases List.mem_cons.mp hp with rfl | hmem
        · exact hm (k, a) (List.mem_cons_self _ _)
        · exact ih (fun q hq => hm q (List.mem_cons_of_mem _ hq)) p hmem

theorem allocGood_tagRecord (m : AllocMap) (cc : String) (r : CostRecord)
    (hm : ∀ p ∈ m, allocGood p.2) :
    ∀ p ∈ tagRecord m cc r, allocGood p.2 := by
  apply allocGood_updateAlloc m cc _ ?_ hm
  intro a ha
  simp only [allocGood] at ha ⊢
  rw [ha]
  ring

theorem allocGood_allocTagged (cfg : AllocatorConfig) (records : List CostRecord) :
    ∀ (acc : AllocMap × List CostRecord), (∀ p ∈ acc.1, allocGood p.2) →
      ∀ p ∈ (records.foldl
        (fun acc r =>
          let cc := getCostCenter cfg r
          if cc = "" then (acc.1, acc.2 ++ [r]) else (tagRecord acc.1 cc r, acc.2))
        acc).1, allocGood p.2 := by
  induction records with
  | nil => intro acc hacc; exact hacc
  | cons r records ih =>
      intro acc hacc
      apply ih
      by_cases h : getCostCenter cfg r = ""
      · simpa [h] using hacc
      · simp only [h, if_false, ite_false]
        exact allocGood_tagRecord acc.1 _ r hacc

theorem allocGood_applyRules (rules : List SharedCostRule) (pool : ℚ) :
    ∀ (acc : AllocMap × ℚ), (∀ p ∈ acc.1, allocGood p.2) →
      ∀ p ∈ (applyRules rules pool acc).1, allocGood p.2 := by
  induction rules with
  | nil => intro acc hacc; exact hacc
  | cons rule rules ih =>
      intro acc hacc
      apply ih
      apply allocGood_updateAlloc acc.1 rule.costCenter _ ?_ hacc
      intro a ha
      simp only [allocGood] at ha ⊢
      rw [ha]
      ring

theorem allocGood_distributeProportionally (m : AllocMap) (amount : ℚ)
    (hm : ∀ p ∈ m, allocGood p.2) :
    ∀ p ∈ distributeProportionally m amount, allocGood p.2 := by
  simp only [distributeProportionally]
  by_cases h : sumDirect m = 0
  · rw [if_pos h]
    exact hm
  · rw [if_neg h]
    intro p hp
    obtain ⟨q, hq, hpq⟩ := List.mem_map.mp hp
    rw [← hpq]
    have := hm q hq
    simp only [allocGood] at this ⊢
    rw [this]
    ring

theorem allocGood_mapsFold (cc : String) (rs : List CostRecord) :
    ∀ (m : AllocMap), (∀ p ∈ m, allocGood p.2) →
      ∀ p ∈ rs.foldl
        (fun acc r => updateAlloc acc cc
          (fun a => { a with byCloud := addTo a.byCloud r.cloud r.cost
                             byService := addTo a.byService r.service r.cost })) m,
        allocGood p.2 := by
  induction rs with
  | nil => intro m hm; exact hm
  | cons r rs ih =>
      intro m hm
      apply ih
      apply allocGood_updateAlloc m cc _ ?_ hm
      intro a ha
      simpa [allocGood] using ha

theorem allocGood_allocateUntagged (cfg : AllocatorConfig) (m : AllocMap)
    (untagged : List CostRecord) (hm : ∀ p ∈ m, allocGood p.2) :
    ∀ p ∈ allocateUntagged cfg m untagged, allocGood p.2 := by
  simp only [allocateUntagged]
  by_cases h0 : untagged = []
  · rw [if_pos h0]
    exact hm
  · rw [if_neg h0]
    by_cases h1 : cfg.sharedCostSplit ≠ []
    · rw [if_pos h1]
      have hr := allocGood_applyRules cfg.sharedCostSplit
        ((untagged.map CostRecord.cost).sum) (m, 100) hm
      by_cases h2 : (applyRules cfg.sharedCostSplit ((untagged.map CostRecord.cost).sum) (m, 100)).2 > 0
      · rw [if_pos h2]
        exact allocGood_distributeProportionally _ _ hr
      · rw [if_neg h2]
        exact hr
    · rw [if_neg h1]
      by_cases h2 : cfg.untaggedPool ≠ ""
      · rw [if_pos h2]
        apply allocGood_mapsFold cfg.untaggedPool untagged
        apply allocGood_updateAlloc m cfg.untaggedPool _ ?_ hm
        intro a ha
        simp only [allocGood] at ha ⊢
        rw [ha]
        ring
      · rw [if_neg h2]
        exact allocGood_distributeProportionally _ _ hm

/-- C7: every allocation produced by `Allocate` — for any configuration of
primary/fallback tags, shared-cost rules and untagged-pool name, and any
record list — satisfies `totalCost = directCost + allocatedCost`. -/
theorem allocate_total_split (cfg : AllocatorConfig) (records : List CostRecord)
    (cc : String) (a : Allocation) (h : (cc, a) ∈ Allocate cfg records) :
    a.totalCost = a.directCost + a.allocatedCost := by
  have hT : ∀ p ∈ (allocTagged cfg records).1, allocGood p.2 :=
    allocGood_allocTagged cfg records ([], []) (by simp)
  exact allocGood_allocateUntagged cfg (allocTagged cfg records).1
    (allocTagged cfg records).2 hT (cc, a) h

/-! ## Concrete allocator runs -/

/-- A 60-dollar record tagged `cost_center=A`. -/
def recTag60 : CostRecord :=
  { cloud := "aws", account := "111", service := "compute", region := "us-east-1",
    date := "2024-01-01", cost := 60, tags := [("cost_center", "A")] }

/-- A 40-dollar record tagged `cost_center=B`. -/
def recTag40 : CostRecord := { recTag60 with cost := 40, tags := [("cost_center", "B")] }

/-- A 100-dollar untagged record. -/
def recUn100 : CostRecord := { recTag60 with cost := 100, tags := [] }

/-- Allocator configuration with no shared rules and no untagged pool. -/
def cfgProp : AllocatorConfig :=
  { primaryTag := "cost_center", fallbackTag := "team", untaggedPool := "",
    sharedCostSplit := [] }

/-- Allocator configuration with the untagged pool named `SHARED`. -/
def cfgPool : AllocatorConfig := { cfgProp with untaggedPool := "SHARED" }

/-- Allocator configuration whose shared-cost percentages total 120. -/
def cfgOver : AllocatorConfig :=
  { cfgProp with sharedCostSplit := [⟨"X", 60⟩, ⟨"Y", 60⟩] }

/-- The allocation accumulated for center `A` from `recTag60`. -/
def allocA : Allocation :=
  { costCenter := "A", totalCost := 60, directCost := 60, allocatedCost := 0,
    byCloud := [("aws", 60)], byService := [("compute", 60)], records := [recTag60] }

/-- A bare allocation for center `A` with direct cost 60. -/
def allocA60 : Allocation :=
  { costCenter := "A", totalCost := 60, directCost := 60, allocatedCost := 0,
    byCloud := [], byService := [], records := [] }

/-- A bare allocation for center `B` with direct cost 40. -/
def allocB40 : Allocation := { allocA60 with costCenter := "B", totalCost := 40, directCost := 40 }

/-- An allocation map holding centers `A` (direct 60) and `B` (direct 40). -/
def mAB : AllocMap := [("A", allocA60), ("B", allocB40)]

/-- Witness for `allocate_total_split` at a pool-configured run. -/
theorem allocate_total_split_witness :
    (("A", allocA) ∈ Allocate cfgPool [recTag60, recUn100]) ∧
    allocA.totalCost = allocA.directCost + allocA.allocatedCost := by
  have hmem : ("A", allocA) ∈ Allocate cfgPool [recTag60, recUn100] := by
    simp [Allocate, allocTagged, allocateUntagged, distributeProportionally,
      applyRules, sumDirect, updateAlloc, tagRecord, getCostCenter, lookupTag,
      emptyAlloc, addTo, cfgPool, cfgProp, recTag60, recUn100, allocA]
  exact ⟨hmem, allocate_total_split cfgPool [recTag60, recUn100] "A" allocA hmem⟩

/-- C8: a zero direct-cost total makes `distributeProportionally` drop the
amount entirely (the map is returned unchanged); otherwise every center
`(cc, a)` receives `amount * (directCost / Σ directCost)` on both its
allocated and total cost; and concretely, centers A (direct 60) and
B (direct 40) with an untagged pool of 100 and neither shared rules nor a
pool name end at totals A = 120 and B = 80. -/
theorem distributeProportionally_shares :
    (∀ (m : AllocMap) (amount : ℚ), sumDirect m = 0 →
      distributeProportionally m amount = m) ∧
    (∀ (m : AllocMap) (amount : ℚ) (cc : String) (a : Allocation),
      sumDirect m ≠ 0 → (cc, a) ∈ m →
      (cc, { a with
          allocatedCost := a.allocatedCost + amount * (a.directCost / sumDirect m)
          totalCost := a.totalCost + amount * (a.directCost / sumDirect m) }) ∈
        distributeProportionally m amount) ∧
    (Allocate cfgProp [recTag60, recTag40, recUn100]).map
      (fun p => (p.1, p.2.totalCost)) = [("A", 120), ("B", 80)] := by
  refine ⟨?_, ?_, ?_⟩
  · intro m amount h
    simp only [distributeProportionally]
    rw [if_pos h]
  · intro m amount cc a h hmem
    simp only [distributeProportionally]
    rw [if_neg h]
    exact List.mem_map_of_mem _ hmem
  · simp [Allocate, allocTagged, allocateUntagged, distributeProportionally,
      applyRules, sumDirect, updateAlloc, tagRecord, getCostCenter, lookupTag,
      emptyAlloc, addTo, cfgProp, recTag60, recTag40, recUn100]
    norm_num

/-- Witness for `distributeProportionally_shares` at an empty map and at
the two-center map with direct costs 60 and 40. -/
theorem distributeProportionally_shares_witness :
    (sumDirect ([] : AllocMap) = 0 ∧ distributeProportionally [] 7 = []) ∧
    (sumDirect mAB ≠ 0 ∧
      ("A", { allocA60 with
          allocatedCost := allocA60.allocatedCost + 100 * (allocA60.directCost / sumDirect mAB)
          totalCost := allocA60.totalCost + 100 * (allocA60.directCost / sumDirect mAB) }) ∈
        distributeProportionally mAB 100) := by
  have h0 : sumDirect ([] : AllocMap) = 0 := rfl
  have hne : sumDirect mAB ≠ 0 := by
    norm_num [sumDirect, mAB, allocA60, allocB40]
  exact ⟨⟨h0, distributeProportionally_shares.1 [] 7 h0⟩,
    ⟨hne, distributeProportionally_shares.2.1 mAB 100 "A" allocA60 hne (by simp [mAB])⟩⟩

/-- C9: the allocator performs no validation of shared-cost percentages:
with rules totalling 120% and an untagged pool of 100, `Allocate` returns
normally (its signature has no error path at all) and grants each rule its
full slice, allocating 120 out of a 100 pool instead of rejecting the
configuration. -/
theorem allocate_over100_no_rejection :
    (cfgOver.sharedCostSplit.map SharedCostRule.percentage).sum = 120 ∧
    (Allocate cfgOver [recUn100]).map (fun p => (p.1, p.2.allocatedCost)) =
      [("X", 60), ("Y", 60)] ∧
    ((Allocate cfgOver [recUn100]).map (fun p => p.2.allocatedCost)).sum = 120 := by
  refine ⟨by simp [cfgOver, cfgProp]; norm_num, ?_, ?_⟩ <;>
  · simp [Allocate, allocTagged, allocateUntagged, distributeProportionally,
      applyRules, sumDirect, updateAlloc, tagRecord, getCostCenter, lookupTag,
      emptyAlloc, addTo, cfgOver, cfgProp, recUn100]
    norm_num

end FinOps
